import Mathlib

/-!
# Russian-roulette chat game: shallow embedding and verification

Embedding of the per-chat game state machine of `marktanrj/russian-roulette`.
The current revision of `main.go` (the one with `PullCount`, `Skips` and
`HasPulledOnTurn`, whose `/stop` and fatal `/pull` use `delete`) is embedded
first; the two earlier revisions of the same file (which lack those fields and
overwrite the map entry with `nil` on stop/fatal) are embedded afterwards with
a `V0`/`V1` suffix, for the nil-dereference analysis.

Modelling conventions:
* Go machine integers that are provably non-negative in every reachable state
  (`Bullet`, `CurrentPos`, `PullCount`, skip counts) are `Nat`; the one
  subtraction `6 - PullCount - 1` is computed in `Int`, exactly as Go's `int`
  does, and compared with `<= 0` as in the source.
* The `games map[int64]*Game` registry is modelled per chat id: every handler
  reads and writes only `games[m.Chat.ID]`, so a handler is a function of that
  one entry.  For the current revision an entry is `Option Game`
  (`none` = no key).  For the earlier revisions an entry is
  `Option (Option GameV0)`: `none` = no key, `some none` = the key is present
  but holds a `nil` pointer, and evaluating `game.IsActive` on it is a nil
  dereference (a Go panic), surfaced as a `nilDeref` outcome.
* `float64` odds arithmetic is modelled exactly over `ℚ`.
* `rand.Intn(6)` is a parameter `bullet` constrained by `bullet < 6` where a
  game is created.
* Go map reads default to `0` for missing keys; `Skips` is an association
  list with `skipsGet` / `skipsSet` implementing Go map read / write.
-/

/-- Go map read `m[p]` with Go's zero-value default. -/
def skipsGet (m : List (String × Nat)) (p : String) : Nat :=
  match m.find? (fun e => e.1 == p) with
  | some e => e.2
  | none => 0

/-- Go map write `m[p] = v`. -/
def skipsSet (m : List (String × Nat)) (p : String) (v : Nat) : List (String × Nat) :=
  match m with
  | [] => [(p, v)]
  | e :: rest => if e.1 = p then (p, v) :: rest else e :: skipsSet rest p v

/-- The `Game` struct of the current revision of `main.go`. -/
structure Game where
  Players : List String
  Bullet : Nat
  CurrentPos : Nat
  PullCount : Nat
  IsActive : Bool
  Skips : List (String × Nat)
  HasPulledOnTurn : Bool
deriving Repr, DecidableEq

/-- The expression `game.Players[game.CurrentPos % len(game.Players)]`.  In every reachable
state `Players` is non-empty, so the `getD` default is never consulted. -/
def currentPlayerOf (g : Game) : String :=
  g.Players.getD (g.CurrentPos % g.Players.length) ""

/-- The assignment `games[m.Chat.ID] = &Game` of the `/create` handler. -/
def newGame (playerID : String) (bullet : Nat) : Game :=
  { Players := [playerID]
    Bullet := bullet
    CurrentPos := 0
    PullCount := 0
    IsActive := true
    Skips := [(playerID, 2)]
    HasPulledOnTurn := false }

inductive CreateOutcome where
  | alreadyInProgress
  | created
deriving Repr, DecidableEq

/-- The `/create` handler, acting on the chat's registry entry.  `bullet` is
the value drawn by `rand.Intn(6)`. -/
def createHandler (entry : Option Game) (sender : String) (bullet : Nat) :
    Option Game × CreateOutcome :=
  match entry with
  | some game =>
    if game.IsActive then (some game, .alreadyInProgress)
    else (some (newGame sender bullet), .created)
  | none => (some (newGame sender bullet), .created)

inductive JoinOutcome where
  | noActiveGame
  | alreadyInGame
  | joined (players : List String)
deriving Repr, DecidableEq

/-- The `/join` handler. -/
def joinHandler (entry : Option Game) (sender : String) :
    Option Game × JoinOutcome :=
  match entry with
  | none => (none, .noActiveGame)
  | some game =>
    if ¬ game.IsActive then (some game, .noActiveGame)
    else if sender ∈ game.Players then (some game, .alreadyInGame)
    else
      let g := { game with
        Players := game.Players ++ [sender]
        Skips := skipsSet game.Skips sender 2 }
      (some g, .joined g.Players)

inductive StartOutcome where
  | noActiveGame
  | needTwoPlayers
  | starting (firstUp : String)
deriving Repr, DecidableEq

/-- The `/start` handler.  It only sends messages: the registry entry is
returned unchanged on every path. -/
def startHandler (entry : Option Game) : Option Game × StartOutcome :=
  match entry with
  | none => (none, .noActiveGame)
  | some game =>
    if ¬ game.IsActive then (some game, .noActiveGame)
    else if game.Players.length < 2 then (some game, .needTwoPlayers)
    else (some game, .starting (game.Players.getD 0 ""))

inductive SkipOutcome where
  | noActiveGame
  | notYourTurn (expected : String)
  | alreadyPulledThisTurn
  | noSkipsRemaining
  | skipped (skipsLeft : Nat) (nextUp : String)
deriving Repr, DecidableEq

/-- The `/skip` handler of the current revision. -/
def skipHandler (entry : Option Game) (sender : String) :
    Option Game × SkipOutcome :=
  match entry with
  | none => (none, .noActiveGame)
  | some game =>
    if ¬ game.IsActive then (some game, .noActiveGame)
    else
      let currentPlayer := currentPlayerOf game
      if sender ≠ currentPlayer then (some game, .notYourTurn currentPlayer)
      else if game.HasPulledOnTurn then (some game, .alreadyPulledThisTurn)
      else if skipsGet game.Skips currentPlayer ≤ 0 then
        (some game, .noSkipsRemaining)
      else
        let g := { game with
          Skips := skipsSet game.Skips currentPlayer
            (skipsGet game.Skips currentPlayer - 1)
          CurrentPos := game.CurrentPos + 1
          HasPulledOnTurn := false }
        (some g, .skipped (skipsGet g.Skips currentPlayer) (currentPlayerOf g))

inductive PassOutcome where
  | noActiveGame
  | notYourTurn (expected : String)
  | mustPullFirst
  | passed (nextUp : String)
deriving Repr, DecidableEq

/-- The `/pass` handler of the current revision. -/
def passHandler (entry : Option Game) (sender : String) :
    Option Game × PassOutcome :=
  match entry with
  | none => (none, .noActiveGame)
  | some game =>
    if ¬ game.IsActive then (some game, .noActiveGame)
    else
      let currentPlayer := currentPlayerOf game
      if sender ≠ currentPlayer then (some game, .notYourTurn currentPlayer)
      else if ¬ game.HasPulledOnTurn then (some game, .mustPullFirst)
      else
        let g := { game with
          CurrentPos := game.CurrentPos + 1
          HasPulledOnTurn := false }
        (some g, .passed (currentPlayerOf g))

inductive PullOutcome where
  | noActiveGame
  | notYourTurn (expected : String)
  | bang (player : String)
  | survived (player : String) (chambersLeft : Int) (oddsPct : ℚ)
      (skipsRemaining : Nat)
deriving Repr, DecidableEq

/-- The `/pull` handler of the current revision.  `bang` covers both fatal
branches (`PullCount == Bullet`, and the defensive `remainingChambers <= 0`
fallback); both `delete` the registry entry.  `remainingChambers` is Go `int`
arithmetic, hence `Int` here. -/
def pullHandler (entry : Option Game) (sender : String) :
    Option Game × PullOutcome :=
  match entry with
  | none => (none, .noActiveGame)
  | some game =>
    if ¬ game.IsActive then (some game, .noActiveGame)
    else
      let currentPlayer := currentPlayerOf game
      if sender ≠ currentPlayer then (some game, .notYourTurn currentPlayer)
      else if game.PullCount = game.Bullet then (none, .bang sender)
      else
        let remainingChambers : Int := 6 - (game.PullCount : Int) - 1
        if remainingChambers ≤ 0 then (none, .bang sender)
        else
          let oddsPercentage : ℚ := (1 / (remainingChambers : ℚ)) * 100
          let g := { game with
            HasPulledOnTurn := true
            PullCount := game.PullCount + 1 }
          (some g,
            .survived sender remainingChambers oddsPercentage
              (skipsGet game.Skips currentPlayer))

inductive StopOutcome where
  | stopped
  | noActiveGame
deriving Repr, DecidableEq

/-- The `/stop` handler of the current revision: `delete(games, m.Chat.ID)`. -/
def stopHandler (entry : Option Game) : Option Game × StopOutcome :=
  match entry with
  | some game =>
    if game.IsActive then (none, .stopped)
    else (some game, .noActiveGame)
  | none => (none, .noActiveGame)

inductive StatusOutcome where
  | noActiveGame
  | statusReport (players : List String) (waitingFor : String)
      (skips : List Nat)
deriving Repr, DecidableEq

/-- The `/status` handler: read-only. -/
def statusHandler (entry : Option Game) : Option Game × StatusOutcome :=
  match entry with
  | none => (none, .noActiveGame)
  | some game =>
    if ¬ game.IsActive then (some game, .noActiveGame)
    else
      (some game,
        .statusReport game.Players (currentPlayerOf game)
          (game.Players.map (skipsGet game.Skips)))

/-! ## Earlier revisions (`V0` = the first revision, `V1` = the intermediate
revision): these overwrite the registry entry with `nil` on stop and on a
fatal pull instead of deleting it. -/

/-- The `Game` struct of the first revision of `main.go`. -/
structure GameV0 where
  Players : List String
  Bullet : Nat
  CurrentPos : Nat
  IsActive : Bool
deriving Repr, DecidableEq

/-- A registry entry of the earlier revisions: `none` = key absent,
`some none` = key present but holding a `nil` pointer (`games[id] = nil`),
`some (some g)` = live game.  Reading `game.IsActive` through `some none`
is a nil dereference, i.e. a Go runtime panic. -/
abbrev EntryV0 := Option (Option GameV0)

inductive CreateV0Outcome where
  | alreadyInProgress
  | created
  | nilDeref
deriving Repr, DecidableEq

/-- The `/startroulette` handler of the first revision. -/
def createV0 (entry : EntryV0) (sender : String) (bullet : Nat) :
    EntryV0 × CreateV0Outcome :=
  match entry with
  | some (some game) =>
    if game.IsActive then (some (some game), .alreadyInProgress)
    else (some (some ⟨[sender], bullet, 0, true⟩), .created)
  | some none => (some none, .nilDeref)
  | none => (some (some ⟨[sender], bullet, 0, true⟩), .created)

inductive PullV0Outcome where
  | noActiveGame
  | notYourTurn (expected : String)
  | bang (player : String)
  | survived (player : String) (chambersLeft : Int) (oddsPct : ℚ)
  | nilDeref
deriving Repr, DecidableEq

/-- The `/pull` handler of the first revision.  The guard
`!exists || !game.IsActive` reads `game.IsActive` whenever the key exists,
so a `nil` entry is dereferenced.  A fatal pull stores `nil` under the key. -/
def pullV0 (entry : EntryV0) (sender : String) : EntryV0 × PullV0Outcome :=
  match entry with
  | none => (none, .noActiveGame)
  | some none => (some none, .nilDeref)
  | some (some game) =>
    if ¬ game.IsActive then (some (some game), .noActiveGame)
    else
      let currentPlayer := game.Players.getD
        (game.CurrentPos % game.Players.length) ""
      if sender ≠ currentPlayer then (some (some game), .notYourTurn currentPlayer)
      else if game.CurrentPos = game.Bullet then (some none, .bang sender)
      else
        let remainingChambers : Int := 6 - ((game.CurrentPos : Int) + 1)
        (some (some { game with CurrentPos := game.CurrentPos + 1 }),
          .survived sender remainingChambers
            ((1 / (remainingChambers : ℚ)) * 100))

inductive StopV0Outcome where
  | stopped
  | noActiveGame
  | nilDeref
deriving Repr, DecidableEq

/-- The `/stopgame` handler of the first revision: `games[m.Chat.ID] = nil`
(also the `/stop` handler of the intermediate revision, identically). -/
def stopgameV0 (entry : EntryV0) : EntryV0 × StopV0Outcome :=
  match entry with
  | none => (none, .noActiveGame)
  | some none => (some none, .nilDeref)
  | some (some game) =>
    if game.IsActive then (some none, .stopped)
    else (some (some game), .noActiveGame)

/-- The `Game` struct of the intermediate revision of `main.go`. -/
structure GameV1 where
  Players : List String
  Bullet : Nat
  CurrentPos : Nat
  PullCount : Nat
  IsActive : Bool
  Skips : List (String × Nat)
deriving Repr, DecidableEq

abbrev EntryV1 := Option (Option GameV1)

inductive PullV1Outcome where
  | noActiveGame
  | notYourTurn (expected : String)
  | bang (player : String)
  | survived (player : String) (chambersLeft : Int) (oddsPct : ℚ)
      (skipsRemaining : Nat)
  | nilDeref
deriving Repr, DecidableEq

/-- The `/pull` handler of the intermediate revision: both fatal branches
store `nil` under the key (`games[m.Chat.ID] = nil`) instead of deleting. -/
def pullV1 (entry : EntryV1) (sender : String) : EntryV1 × PullV1Outcome :=
  match entry with
  | none => (none, .noActiveGame)
  | some none => (some none, .nilDeref)
  | some (some game) =>
    if ¬ game.IsActive then (some (some game), .noActiveGame)
    else
      let currentPlayer := game.Players.getD
        (game.CurrentPos % game.Players.length) ""
      if sender ≠ currentPlayer then (some (some game), .notYourTurn currentPlayer)
      else if game.PullCount = game.Bullet then (some none, .bang sender)
      else
        let remainingChambers : Int := 6 - (game.PullCount : Int) - 1
        if remainingChambers ≤ 0 then (some none, .bang sender)
        else
          (some (some { game with
              PullCount := game.PullCount + 1
              CurrentPos := game.CurrentPos + 1 }),
            .survived sender remainingChambers
              ((1 / (remainingChambers : ℚ)) * 100)
              (skipsGet game.Skips currentPlayer))

/-! ## Reachability for the current revision

One step is one incoming chat command applied to the chat's registry entry;
`rand.Intn(6)` makes the created game's bullet an arbitrary value `< 6`. -/

/-- One chat command applied to the chat's registry entry (current revision). -/
inductive Step : Option Game → Option Game → Prop where
  | create (e : Option Game) (s : String) (b : Nat) (hb : b < 6) :
      Step e (createHandler e s b).1
  | join (e : Option Game) (s : String) : Step e (joinHandler e s).1
  | start (e : Option Game) : Step e (startHandler e).1
  | skip (e : Option Game) (s : String) : Step e (skipHandler e s).1
  | pass (e : Option Game) (s : String) : Step e (passHandler e s).1
  | pull (e : Option Game) (s : String) : Step e (pullHandler e s).1
  | stop (e : Option Game) : Step e (stopHandler e).1
  | status (e : Option Game) : Step e (statusHandler e).1

/-- Registry entries reachable from the initial empty registry. -/
inductive Reachable : Option Game → Prop where
  | init : Reachable none
  | step {e e' : Option Game} : Reachable e → Step e e' → Reachable e'

/-- The state invariant of a live game: it is active, the bullet is one of
the 6 chambers, no chamber before the bullet's is still loaded (so the pull
count never passes the bullet), and the roster is non-empty. -/
def GoodGame (g : Game) : Prop :=
  g.IsActive = true ∧ g.Bullet < 6 ∧ g.PullCount ≤ g.Bullet ∧ g.Players ≠ []

def GoodEntry : Option Game → Prop
  | none => True
  | some g => GoodGame g

/-- Condition for the defensive chamber-exhausted fatal branch of `/pull`:
all earlier guards passed (active game, current player, bullet check failed)
yet `6 - PullCount - 1 <= 0`. -/
def defensiveFatalTaken (g : Game) (s : String) : Prop :=
  g.IsActive = true ∧ s = currentPlayerOf g ∧ g.PullCount ≠ g.Bullet ∧
    6 - (g.PullCount : Int) - 1 ≤ 0

/-- The two-player game reached by `/create` from alice (bullet chamber 3)
followed by `/join` from bob. -/
def gameAB : Game :=
  { Players := ["alice", "bob"]
    Bullet := 3
    CurrentPos := 0
    PullCount := 0
    IsActive := true
    Skips := [("alice", 2), ("bob", 2)]
    HasPulledOnTurn := false }

/-- Variant of `gameAB` with its active flag cleared (no code path produces this; it
exercises the `IsActive` guard of each handler). -/
def inactiveGame : Game :=
  { gameAB with IsActive := false }

theorem goodGame_newGame {s : String} {b : Nat} (hb : b < 6) :
    GoodGame (newGame s b) := by
  refine ⟨rfl, hb, Nat.zero_le _, ?_⟩
  simp [newGame]

theorem goodEntry_createHandler (e : Option Game) (s : String) (b : Nat)
    (hb : b < 6) (he : GoodEntry e) : GoodEntry (createHandler e s b).1 := by
  cases e with
  | none => exact goodGame_newGame hb
  | some g =>
    simp only [createHandler]
    split
    · exact he
    · exact goodGame_newGame hb

theorem goodEntry_joinHandler (e : Option Game) (s : String)
    (he : GoodEntry e) : GoodEntry (joinHandler e s).1 := by
  cases e with
  | none => trivial
  | some g =>
    have hgg := (he : GoodGame g)
    obtain ⟨h1, h2, h3, h4⟩ := hgg
    simp only [joinHandler]
    split
    · exact he
    · split
      · exact he
      · exact show GoodGame _ from ⟨h1, h2, h3, by simp⟩

theorem goodEntry_startHandler (e : Option Game) (he : GoodEntry e) :
    GoodEntry (startHandler e).1 := by
  cases e with
  | none => trivial
  | some g =>
    simp only [startHandler]
    split
    · exact he
    · split
      · exact he
      · exact he

theorem goodEntry_skipHandler (e : Option Game) (s : String)
    (he : GoodEntry e) : GoodEntry (skipHandler e s).1 := by
  cases e with
  | none => trivial
  | some g =>
    have hgg := (he : GoodGame g)
    obtain ⟨h1, h2, h3, h4⟩ := hgg
    simp only [skipHandler]
    split
    · exact he
    · split
      · exact he
      · split
        · exact he
        · split
          · exact he
          · exact show GoodGame _ from ⟨h1, h2, h3, h4⟩

theorem goodEntry_passHandler (e : Option Game) (s : String)
    (he : GoodEntry e) : GoodEntry (passHandler e s).1 := by
  cases e with
  | none => trivial
  | some g =>
    have hgg := (he : GoodGame g)
    obtain ⟨h1, h2, h3, h4⟩ := hgg
    simp only [passHandler]
    split
    · exact he
    · split
      · exact he
      · split
        · exact he
        · exact show GoodGame _ from ⟨h1, h2, h3, h4⟩

theorem goodEntry_pullHandler (e : Option Game) (s : String)
    (he : GoodEntry e) : GoodEntry (pullHandler e s).1 := by
  cases e with
  | none => trivial
  | some g =>
    have hgg := (he : GoodGame g)
    obtain ⟨h1, h2, h3, h4⟩ := hgg
    simp only [pullHandler]
    split
    · exact he
    · split
      · exact he
      · split
        · trivial
        · split
          · trivial
          · rename_i hne hrem
            exact show GoodGame _ from
              ⟨h1, h2, Nat.succ_le_of_lt (Nat.lt_of_le_of_ne h3 hne), h4⟩

theorem goodEntry_stopHandler (e : Option Game) (he : GoodEntry e) :
    GoodEntry (stopHandler e).1 := by
  cases e with
  | none => trivial
  | some g =>
    simp only [stopHandler]
    split
    · trivial
    · exact he

theorem goodEntry_statusHandler (e : Option Game) (he : GoodEntry e) :
    GoodEntry (statusHandler e).1 := by
  cases e with
  | none => trivial
  | some g =>
    simp only [statusHandler]
    split
    · exact he
    · exact he

/-- Every chat command preserves the state invariant. -/
theorem goodEntry_step {e e' : Option Game} (hs : Step e e')
    (he : GoodEntry e) : GoodEntry e' := by
  cases hs with
  | create s b hb => exact goodEntry_createHandler e s b hb he
  | join s => exact goodEntry_joinHandler e s he
  | start => exact goodEntry_startHandler e he
  | skip s => exact goodEntry_skipHandler e s he
  | pass s => exact goodEntry_passHandler e s he
  | pull s => exact goodEntry_pullHandler e s he
  | stop => exact goodEntry_stopHandler e he
  | status => exact goodEntry_statusHandler e he

/-- Every reachable registry entry satisfies the state invariant. -/
theorem goodEntry_reachable {e : Option Game} (h : Reachable e) :
    GoodEntry e := by
  induction h with
  | init => trivial
  | step _ hs ih => exact goodEntry_step hs ih

/-! ## Claims -/

/-- C1: in an active game, a trigger pull by the current player when the
global pull count equals the bullet position is fatal: the outcome is `bang`
naming that player and the chat's registry entry is deleted.  `/skip` and
`/pass` never change `PullCount`, so this holds after any number of prior
skip/pass cycles. -/
theorem fatal_pull_when_count_matches_bullet :
    (∀ (g : Game) (s : String), g.IsActive = true → s = currentPlayerOf g →
      g.PullCount = g.Bullet →
      pullHandler (some g) s = (none, .bang s)) ∧
    (∀ (g : Game) (s : String),
      Option.map Game.PullCount (skipHandler (some g) s).1 =
        some g.PullCount ∧
      Option.map Game.PullCount (passHandler (some g) s).1 =
        some g.PullCount) := by
  constructor
  · intro g s hA hc hb
    subst hc
    simp [pullHandler, hA, hb]
  · intro g s
    constructor
    · simp only [skipHandler]
      split
      · rfl
      · split
        · rfl
        · split
          · rfl
          · split
            · rfl
            · rfl
    · simp only [passHandler]
      split
      · rfl
      · split
        · rfl
        · split
          · rfl
          · rfl

/-- Witness for C1: the creator pulls first on a fresh game whose bullet is
in chamber 0, and dies; the entry is gone. -/
theorem fatal_pull_when_count_matches_bullet_witness :
    pullHandler (some (newGame "alice" 0)) "alice" =
      (none, .bang "alice") :=
  fatal_pull_when_count_matches_bullet.1 (newGame "alice" 0) "alice"
    rfl rfl rfl

/-- C9: a pull by anyone other than `Players[CurrentPos % len(Players)]`
is rejected naming exactly that expected player, and the registry entry (the
whole game state) is returned unchanged. -/
theorem pull_wrong_player_rejected (g : Game) (s : String)
    (hA : g.IsActive = true) (hs : s ≠ currentPlayerOf g) :
    pullHandler (some g) s = (some g, .notYourTurn (currentPlayerOf g)) := by
  simp [pullHandler, hA, hs]

/-- Witness for C9: bob pulls on turn 0 of `gameAB`, where alice is up. -/
theorem pull_wrong_player_rejected_witness :
    pullHandler (some gameAB) "bob" =
      (some gameAB, .notYourTurn (currentPlayerOf gameAB)) :=
  pull_wrong_player_rejected gameAB "bob" rfl (by decide)

/-- C4: a surviving pull (pull count differs from the bullet position and
chambers remain) increments `PullCount` by exactly 1, sets
`HasPulledOnTurn`, and leaves `CurrentPos` unchanged, so the same player is
still the current player; the reported chambers left, `6 - PullCount - 1`,
equals the chamber count minus the post-increment pull count, and the
reported fatal odds equal `100` divided by that chambers-left figure. -/
theorem surviving_pull_updates (g : Game) (s : String)
    (hA : g.IsActive = true) (hc : s = currentPlayerOf g)
    (hb : g.PullCount ≠ g.Bullet) (hr : 0 < 6 - (g.PullCount : Int) - 1) :
    pullHandler (some g) s =
      (some { g with PullCount := g.PullCount + 1, HasPulledOnTurn := true },
        .survived s (6 - (g.PullCount : Int) - 1)
          ((1 / ((6 - (g.PullCount : Int) - 1 : Int) : ℚ)) * 100)
          (skipsGet g.Skips s)) ∧
    (6 - (g.PullCount : Int) - 1) = 6 - ((g.PullCount : Int) + 1) ∧
    ((1 / ((6 - (g.PullCount : Int) - 1 : Int) : ℚ)) * 100)
        = 100 / ((6 - (g.PullCount : Int) - 1 : Int) : ℚ) ∧
    currentPlayerOf { g with PullCount := g.PullCount + 1, HasPulledOnTurn := true } = currentPlayerOf g := by
  subst hc
  have hr' : ¬ (6 - (g.PullCount : Int) - 1 ≤ 0) := not_le.mpr hr
  refine ⟨?_, by ring, by rw [one_div, inv_mul_eq_div], rfl⟩
  simp [pullHandler, hA, hb, hr']

/-- Witness for C4: alice's first pull on `gameAB` (bullet in chamber 3)
survives, leaving 5 chambers and 20% odds. -/
theorem surviving_pull_updates_witness :
    pullHandler (some gameAB) "alice" =
      (some { gameAB with PullCount := 0 + 1, HasPulledOnTurn := true },
        .survived "alice" (6 - ((0 : Nat) : Int) - 1)
          ((1 / ((6 - ((0 : Nat) : Int) - 1 : Int) : ℚ)) * 100)
          (skipsGet gameAB.Skips "alice")) :=
  (surviving_pull_updates gameAB "alice" rfl rfl (by decide) (by decide)).1

/-- C6: the defensive chamber-exhausted fatal branch of `/pull` is
unreachable: no reachable game state satisfies its guard, and whenever the
bullet check of a pull by the current player fails, the pull lands in the
survival branch. -/
theorem defensive_branch_unreachable (g : Game) (s : String)
    (h : Reachable (some g)) :
    ¬ defensiveFatalTaken g s ∧
    (g.IsActive = true → s = currentPlayerOf g → g.PullCount ≠ g.Bullet →
      (pullHandler (some g) s).2 =
        .survived s (6 - (g.PullCount : Int) - 1)
          ((1 / ((6 - (g.PullCount : Int) - 1 : Int) : ℚ)) * 100)
          (skipsGet g.Skips s)) := by
  obtain ⟨h1, h2, h3, h4⟩ := goodEntry_reachable h
  constructor
  · rintro ⟨_, _, hne, hle⟩
    have hlt : g.PullCount < g.Bullet := lt_of_le_of_ne h3 hne
    omega
  · intro hA hc hb
    subst hc
    have hr' : ¬ (6 - (g.PullCount : Int) - 1 ≤ 0) := by
      have hlt : g.PullCount < g.Bullet := lt_of_le_of_ne h3 hb
      omega
    simp [pullHandler, hA, hb, hr']

/-- Witness for C6 at the reachable state created by `/create` from alice
with bullet chamber 3. -/
theorem defensive_branch_unreachable_witness :
    ¬ defensiveFatalTaken (newGame "alice" 3) "alice" :=
  (defensive_branch_unreachable (newGame "alice" 3) "alice"
    (Reachable.step Reachable.init
      (Step.create none "alice" 3 (by norm_num)))).1

/-- Go map write-then-read: after `m[p] = v`, `m[p]` is `v`. -/
theorem skipsGet_skipsSet (m : List (String × Nat)) (p : String) (v : Nat) :
    skipsGet (skipsSet m p v) p = v := by
  induction m with
  | nil => simp [skipsGet, skipsSet, List.find?]
  | cons e rest ih =>
    by_cases h : e.1 = p
    · simp [skipsGet, skipsSet, h, List.find?]
    · have hb : (e.1 == p) = false := by simp [h]
      simp only [skipsSet, if_neg h]
      simpa [skipsGet, List.find?, hb] using ih

/-- C7: for the current player of an active game, `/skip` is rejected
for having already pulled exactly when `HasPulledOnTurn` holds, `/pass` is
rejected for not having pulled exactly when it does not, and the two
rejection conditions are mutually exclusive and exhaustive. -/
theorem skip_pass_rejection_iff (g : Game) (s : String)
    (hA : g.IsActive = true) (hc : s = currentPlayerOf g) :
    ((skipHandler (some g) s).2 = .alreadyPulledThisTurn ↔
      g.HasPulledOnTurn = true) ∧
    ((passHandler (some g) s).2 = .mustPullFirst ↔
      g.HasPulledOnTurn = false) ∧
    ((skipHandler (some g) s).2 = .alreadyPulledThisTurn ↔
      ¬ (passHandler (some g) s).2 = .mustPullFirst) := by
  subst hc
  cases hp : g.HasPulledOnTurn
  · refine ⟨?_, ?_, ?_⟩
    · simp only [skipHandler, hA, hp]
      simp
      split <;> simp
    · simp [passHandler, hA, hp]
    · simp only [skipHandler, passHandler, hA, hp]
      simp
      split <;> simp
  · refine ⟨?_, ?_, ?_⟩ <;>
      simp [skipHandler, passHandler, hA, hp]

/-- Witness for C7 at `gameAB` (alice current, has not pulled yet). -/
theorem skip_pass_rejection_iff_witness :
    ((skipHandler (some gameAB) "alice").2 = .alreadyPulledThisTurn ↔
      gameAB.HasPulledOnTurn = true) ∧
    ((passHandler (some gameAB) "alice").2 = .mustPullFirst ↔
      gameAB.HasPulledOnTurn = false) ∧
    ((skipHandler (some gameAB) "alice").2 = .alreadyPulledThisTurn ↔
      ¬ (passHandler (some gameAB) "alice").2 = .mustPullFirst) :=
  skip_pass_rejection_iff gameAB "alice" rfl rfl

/-- C8: a successful `/skip` by the current player (who has not pulled
this turn) decrements that player's skip count by exactly 1 — recorded by
the write-then-read of the `Skips` map — advances `CurrentPos` by exactly 1,
resets `HasPulledOnTurn`, and leaves `PullCount`, `Bullet` and `Players`
untouched (all pinned by the record update); with the count already at 0 the
skip is instead rejected and the game is unchanged, so a skip count can
never go below 0. -/
theorem skip_success_effects (g : Game) (s : String)
    (hA : g.IsActive = true) (hc : s = currentPlayerOf g)
    (hn : g.HasPulledOnTurn = false) :
    (0 < skipsGet g.Skips s →
      skipHandler (some g) s =
        (some { g with
            Skips := skipsSet g.Skips s (skipsGet g.Skips s - 1)
            CurrentPos := g.CurrentPos + 1
            HasPulledOnTurn := false },
          .skipped (skipsGet g.Skips s - 1)
            (currentPlayerOf { g with
              Skips := skipsSet g.Skips s (skipsGet g.Skips s - 1)
              CurrentPos := g.CurrentPos + 1
              HasPulledOnTurn := false })) ∧
      skipsGet (skipsSet g.Skips s (skipsGet g.Skips s - 1)) s
        = skipsGet g.Skips s - 1) ∧
    (skipsGet g.Skips s = 0 →
      skipHandler (some g) s = (some g, .noSkipsRemaining)) := by
  subst hc
  constructor
  · intro hpos
    have h3 : ¬ (skipsGet g.Skips (currentPlayerOf g) ≤ 0) := by omega
    refine ⟨?_, skipsGet_skipsSet _ _ _⟩
    simp [skipHandler, hA, hn, h3, skipsGet_skipsSet]
  · intro hzero
    simp [skipHandler, hA, hn, hzero]

/-- Witness for C8: alice skips on turn 0 of `gameAB`, going from 2 skips to
1 and handing the turn to bob. -/
theorem skip_success_effects_witness :
    skipHandler (some gameAB) "alice" =
      (some { gameAB with
          Skips := skipsSet gameAB.Skips "alice"
            (skipsGet gameAB.Skips "alice" - 1)
          CurrentPos := gameAB.CurrentPos + 1
          HasPulledOnTurn := false },
        .skipped (skipsGet gameAB.Skips "alice" - 1)
          (currentPlayerOf { gameAB with
            Skips := skipsSet gameAB.Skips "alice"
              (skipsGet gameAB.Skips "alice" - 1)
            CurrentPos := gameAB.CurrentPos + 1
            HasPulledOnTurn := false })) :=
  ((skip_success_effects gameAB "alice" rfl rfl rfl).1 (by decide)).1

/-- Any single command that maps a live active game to a live game leaves
`Bullet` unchanged and never decreases `PullCount`. -/
theorem step_some_frame {g : Game} {e' : Option Game} (h1 : g.IsActive = true)
    (hs : Step (some g) e') :
    ∀ g', e' = some g' → g.PullCount ≤ g'.PullCount ∧ g'.Bullet = g.Bullet := by
  cases hs with
  | create s b hb =>
    intro g' h
    simp [createHandler, h1] at h
    subst h
    exact ⟨le_refl _, rfl⟩
  | join s =>
    intro g' h
    simp only [joinHandler] at h
    split at h
    · simp at h; subst h; exact ⟨le_refl _, rfl⟩
    · split at h
      · simp at h; subst h; exact ⟨le_refl _, rfl⟩
      · simp at h; subst h; exact ⟨le_refl _, rfl⟩
  | start =>
    intro g' h
    simp only [startHandler] at h
    split at h
    · simp at h; subst h; exact ⟨le_refl _, rfl⟩
    · split at h
      · simp at h; subst h; exact ⟨le_refl _, rfl⟩
      · simp at h; subst h; exact ⟨le_refl _, rfl⟩
  | skip s =>
    intro g' h
    simp only [skipHandler] at h
    split at h
    · simp at h; subst h; exact ⟨le_refl _, rfl⟩
    · split at h
      · simp at h; subst h; exact ⟨le_refl _, rfl⟩
      · split at h
        · simp at h; subst h; exact ⟨le_refl _, rfl⟩
        · split at h
          · simp at h; subst h; exact ⟨le_refl _, rfl⟩
          · simp at h; subst h; exact ⟨le_refl _, rfl⟩
  | pass s =>
    intro g' h
    simp only [passHandler] at h
    split at h
    · simp at h; subst h; exact ⟨le_refl _, rfl⟩
    · split at h
      · simp at h; subst h; exact ⟨le_refl _, rfl⟩
      · split at h
        · simp at h; subst h; exact ⟨le_refl _, rfl⟩
        · simp at h; subst h; exact ⟨le_refl _, rfl⟩
  | pull s =>
    intro g' h
    simp only [pullHandler] at h
    split at h
    · simp at h; subst h; exact ⟨le_refl _, rfl⟩
    · split at h
      · simp at h; subst h; exact ⟨le_refl _, rfl⟩
      · split at h
        · simp at h
        · split at h
          · simp at h
          · simp at h; subst h; exact ⟨Nat.le_succ _, rfl⟩
  | stop =>
    intro g' h
    simp [stopHandler, h1] at h
  | status =>
    intro g' h
    simp only [statusHandler] at h
    split at h
    · simp at h; subst h; exact ⟨le_refl _, rfl⟩
    · simp at h; subst h; exact ⟨le_refl _, rfl⟩

/-- C5: every reachable game state has `PullCount` at most 6 and
`Bullet` in `[0, 6)` (it is a `Nat`, so non-negative), and every single
command step between live states of the same game leaves `Bullet` unchanged
and never decreases `PullCount` — so along any operation sequence within a
game, `PullCount` is non-decreasing and `Bullet` is fixed at creation. -/
theorem pullCount_monotone_bullet_invariant (g : Game)
    (h : Reachable (some g)) :
    (g.PullCount ≤ 6 ∧ g.Bullet < 6) ∧
    ∀ g', Step (some g) (some g') →
      g.PullCount ≤ g'.PullCount ∧ g'.Bullet = g.Bullet := by
  obtain ⟨h1, h2, h3, h4⟩ := goodEntry_reachable h
  refine ⟨⟨by omega, h2⟩, ?_⟩
  intro g' hs
  exact step_some_frame h1 hs g' rfl

/-- Witness for C5 at the reachable state created by `/create` from alice
with bullet chamber 3. -/
theorem pullCount_monotone_bullet_invariant_witness :
    (newGame "alice" 3).PullCount ≤ 6 ∧ (newGame "alice" 3).Bullet < 6 :=
  (pullCount_monotone_bullet_invariant (newGame "alice" 3)
    (Reachable.step Reachable.init
      (Step.create none "alice" 3 (by norm_num)))).1

/-- C2 as stated fails on the code: there is no Lobby status.  On a
freshly created game, before any `/start`, a `/pull` by the creator is not
rejected — it changes the game state and reports a survival. -/
theorem pull_before_start_not_rejected :
    (pullHandler (some (newGame "alice" 3)) "alice").1 ≠
      some (newGame "alice" 3) ∧
    (pullHandler (some (newGame "alice" 3)) "alice").2 =
      .survived "alice" 5 ((1 / (5 : ℚ)) * 100) 2 := by
  constructor
  · decide
  · norm_num [pullHandler, newGame, currentPlayerOf, skipsGet, List.find?]

/-- C2 amended: `pull`, `pass` and `skip` are gated only on the chat
having an active game (`!exists || !game.IsActive`), not on `/start` having
been invoked: with no entry or an inactive one each is rejected with
`noActiveGame` and the state unchanged; on an active game — and every
created game is immediately active — none of them reports `noActiveGame`. -/
theorem actions_gated_only_by_activity :
    (∀ s, pullHandler none s = (none, .noActiveGame) ∧
      passHandler none s = (none, .noActiveGame) ∧
      skipHandler none s = (none, .noActiveGame)) ∧
    (∀ g s, g.IsActive = false →
      pullHandler (some g) s = (some g, .noActiveGame) ∧
      passHandler (some g) s = (some g, .noActiveGame) ∧
      skipHandler (some g) s = (some g, .noActiveGame)) ∧
    (∀ g s, g.IsActive = true →
      (pullHandler (some g) s).2 ≠ .noActiveGame ∧
      (passHandler (some g) s).2 ≠ .noActiveGame ∧
      (skipHandler (some g) s).2 ≠ .noActiveGame) ∧
    (∀ p b, (newGame p b).IsActive = true) := by
  refine ⟨fun s => ⟨rfl, rfl, rfl⟩, ?_, ?_, fun p b => rfl⟩
  · intro g s hI
    refine ⟨?_, ?_, ?_⟩ <;> simp [pullHandler, passHandler, skipHandler, hI]
  · intro g s hA
    refine ⟨?_, ?_, ?_⟩
    · simp only [pullHandler, hA]
      simp
      split_ifs <;> simp
    · simp only [passHandler, hA]
      simp
      split_ifs <;> simp
    · simp only [skipHandler, hA]
      simp
      split_ifs <;> simp

/-- Witness for C2 (amended): an inactive entry rejects a pull unchanged,
while the active `gameAB` does not report `noActiveGame`. -/
theorem actions_gated_only_by_activity_witness :
    pullHandler (some inactiveGame) "alice" =
      (some inactiveGame, .noActiveGame) ∧
    (pullHandler (some gameAB) "alice").2 ≠ .noActiveGame :=
  ⟨(actions_gated_only_by_activity.2.1 inactiveGame "alice" rfl).1,
    (actions_gated_only_by_activity.2.2.1 gameAB "alice" rfl).1⟩

/-- C3 as stated fails on the code: `/start` changes no state, so
"begun" is not represented and a join after `/start` on a started
two-player game still succeeds and modifies the roster, instead of being
rejected. -/
theorem join_after_start_succeeds :
    (startHandler (some gameAB)).2 = .starting "alice" ∧
    (startHandler (some gameAB)).1 = some gameAB ∧
    (joinHandler (some gameAB) "carol").1 =
      some { gameAB with Players := ["alice", "bob", "carol"], Skips := [("alice", 2), ("bob", 2), ("carol", 2)] } ∧
    (joinHandler (some gameAB) "carol").2 =
      .joined ["alice", "bob", "carol"] := by
  decide

/-- C3 amended: `join` succeeds on any active game — joins are accepted
before and after `/start` alike, since `/start` leaves the state unchanged.
A duplicate join is rejected (`alreadyInGame`) with the state unchanged;
a successful join appends the player to the roster and grants 2 skips. -/
theorem join_behavior (g : Game) (s : String) (hA : g.IsActive = true) :
    (s ∈ g.Players → joinHandler (some g) s = (some g, .alreadyInGame)) ∧
    (s ∉ g.Players →
      joinHandler (some g) s =
        (some { g with Players := g.Players ++ [s], Skips := skipsSet g.Skips s 2 },
          .joined (g.Players ++ [s]))) ∧
    skipsGet (skipsSet g.Skips s 2) s = 2 ∧
    (startHandler (some g)).1 = some g := by
  refine ⟨?_, ?_, skipsGet_skipsSet _ _ _, ?_⟩
  · intro hmem
    simp [joinHandler, hA, hmem]
  · intro hmem
    simp [joinHandler, hA, hmem]
  · simp only [startHandler, hA]
    simp
    split_ifs <;> rfl

/-- Witness for C3 (amended): carol, not yet in `gameAB`, joins it. -/
theorem join_behavior_witness :
    joinHandler (some gameAB) "carol" =
      (some { gameAB with Players := gameAB.Players ++ ["carol"], Skips := skipsSet gameAB.Skips "carol" 2 },
        .joined (gameAB.Players ++ ["carol"])) :=
  (join_behavior gameAB "carol" rfl).2.1 (by decide)

/-- C10: the nil-safety claim is exactly what the two earlier revisions
violate.  First revision: `/startroulette`, `/stopgame` (which stores
`games[chatID] = nil`), then `/pull` — the guard `!exists || !game.IsActive`
dereferences the nil `*Game`.  Intermediate revision: a fatal `/pull` stores
`nil`, and the next `/pull` dereferences it.  The current revision instead
deletes the entry, after which a `/pull` is cleanly rejected. -/
theorem nil_entry_dereferenced_after_stop :
    ((stopgameV0 (createV0 none "alice" 3).1).1 = some none ∧
      (pullV0 (stopgameV0 (createV0 none "alice" 3).1).1 "alice").2 =
        .nilDeref) ∧
    ((pullV1 (some (some ⟨["alice", "bob"], 0, 0, 0, true,
        [("alice", 2), ("bob", 2)]⟩)) "alice").1 = some none ∧
      (pullV1 (pullV1 (some (some ⟨["alice", "bob"], 0, 0, 0, true,
        [("alice", 2), ("bob", 2)]⟩)) "alice").1 "bob").2 = .nilDeref) ∧
    (stopHandler (some gameAB)).1 = none ∧
    (pullHandler (stopHandler (some gameAB)).1 "alice").2 = .noActiveGame := by
  decide
